import Mathlib

/-!
Verification of the CppToPlantUML converter pipeline.

The development shallowly embeds the Python sources:
* objects.py   — model entities (AccessSpecifier, CppVar, CppField, CppMethod,
  CppClass with its derived properties, the enum variant as an is_enum flag);
* converter.py — the type-spelling reconstruction (_parse_var_type,
  _parse_function_type) and the relationship-emitting part of Converter.output
  (inheritance, aggregation and dependency edges);
* writers.py   — PlantUmlWriter.write.

Python exceptions are modelled with Except, the recoverable warning of
_parse_function_type with a Bool flag in the result.  Strings are Lean
Strings; the regular expressions of the source (token-exclusion fullmatch
and the whole-word search) are translated into explicit character-level
functions.
-/

namespace CppUml

/-! ## Word-boundary search (re.search of a pure name between word boundaries) -/

/-- A word character in the sense of the regex metacharacter used by the
source (letters, digits, underscore). -/
def isWordChar (c : Char) : Bool := c.isAlphanum || c == '_'

/-- Whether position i of the character list holds a word character;
out-of-range positions count as non-word (string edge). -/
def wordAt (s : List Char) (i : Nat) : Bool :=
  match s.get? i with
  | some c => isWordChar c
  | none => false

/-- Word boundary before position i: the wordness changes between i-1 and i. -/
def boundaryAt (s : List Char) (i : Nat) : Bool :=
  (if i = 0 then false else wordAt s (i - 1)) != wordAt s i

/-- The pattern p occurs literally at position i of s. -/
def matchAt (p s : List Char) (i : Nat) : Bool :=
  (s.drop i).take p.length == p

/-- Translation of re.search of a pattern consisting of a literal name
between two word-boundary anchors. -/
def searchWord (p s : List Char) : Bool :=
  (List.range (s.length + 1)).any
    (fun i => matchAt p s i && boundaryAt s i && boundaryAt s (i + p.length))

/-- String-level wrapper for searchWord. -/
def searchWordS (p s : String) : Bool := searchWord p.toList s.toList

/-! ## Scope-qualifier stripping (str.rpartition at the last scope marker) -/

/-- Suffix of the character list after the last occurrence of the
scope-resolution marker, none when the marker does not occur. -/
def afterLastScopeAux : List Char → Option (List Char)
  | [] => none
  | c :: rest =>
    match afterLastScopeAux rest with
    | some r => some r
    | none =>
      if c = ':' then
        match rest with
        | ':' :: tail => some tail
        | _ => none
      else none

/-- type_.rpartition at the scope marker, keeping only the text after the
last occurrence (the whole string when absent). -/
def stripScope (s : String) : String :=
  ((afterLastScopeAux s.toList).getD s.toList).asString

/-- name.partition at the template delimiter, keeping the part before the
first occurrence. -/
def pureNameStr (s : String) : String :=
  (s.toList.takeWhile (fun c => c ≠ '<')).asString

/-! ## Model entities (objects.py) -/

/-- AccessSpecifier enumeration. -/
inductive AccessSpecifier
  | Public
  | Protected
  | Private
deriving DecidableEq, Repr

/-- The single-character visual symbol of an access specifier. -/
def AccessSpecifier.symbol : AccessSpecifier → String
  | .Public => "+"
  | .Protected => "#"
  | .Private => "-"

/-- The keyword of an access specifier. -/
def AccessSpecifier.keyword : AccessSpecifier → String
  | .Public => "public"
  | .Protected => "protected"
  | .Private => "private"

/-- CppVar: a name together with a reconstructed type spelling. -/
structure CppVar where
  name : String
  type : String
deriving DecidableEq, Repr

/-- CppField: a variable with access specifier and staticness. -/
structure CppField where
  var : CppVar
  access_specifier : AccessSpecifier
  is_static : Bool := false
deriving DecidableEq, Repr

/-- The name property of a field delegates to its variable. -/
def CppField.name (f : CppField) : String := f.var.name

/-- The type property of a field delegates to its variable. -/
def CppField.type (f : CppField) : String := f.var.type

/-- CppMethod with the flags set by the extractor. -/
structure CppMethod where
  name : String
  return_type : String
  access_specifier : AccessSpecifier
  args : List CppVar := []
  is_static : Bool := false
  is_abstract : Bool := false
  is_constructor : Bool := false
deriving DecidableEq, Repr

/-- CppClass; the CppEnum subclass is represented by the is_enum flag
(enums are built with empty bodies and force both derived flags false). -/
structure CppClass where
  name : String
  base_classes : List String := []
  fields : List CppField := []
  methods : List CppMethod := []
  is_enum : Bool := false
deriving DecidableEq, Repr

/-- Derived property: some method is abstract (False for enums, which
override the property). -/
def CppClass.is_abstract (c : CppClass) : Bool :=
  !c.is_enum && c.methods.any (fun m => m.is_abstract)

/-- Derived property: every method is abstract or static and there are no
fields (False for enums, which override the property). -/
def CppClass.is_interface (c : CppClass) : Bool :=
  !c.is_enum && (c.methods.all (fun m => m.is_abstract || m.is_static) && c.fields.isEmpty)

/-- Derived property: the class name truncated at the first template
delimiter. -/
def CppClass.pure_name (c : CppClass) : String := pureNameStr c.name

/-! ## Type Spelling Reconstructor (converter.py) -/

/-- Python exception kinds that the reconstruction can raise. -/
inductive PyErr
  | indexError
  | valueError
deriving DecidableEq, Repr

/-- Fullmatch of the bracketed-attribute alternative of the exclusion
patterns: the token is [[, an arbitrary newline-free middle, and ]]. -/
def isAttrToken (t : String) : Bool :=
  let cs := t.toList
  decide (4 ≤ cs.length) && cs.take 2 == ['[', '['] &&
    cs.drop (cs.length - 2) == [']', ']'] &&
    ((cs.drop 2).take (cs.length - 4)).all (fun c => c ≠ '\n')

/-- Exclusion fullmatch used for fields and variables. -/
def excludeVar (t : String) : Bool :=
  t == "static" || isAttrToken t || t == "constexpr" || t == "consteval" || t == "constinit"

/-- Exclusion fullmatch used for callables (adds virtual, explicit, inline,
friend). -/
def excludeFn (t : String) : Bool :=
  t == "static" || t == "virtual" || t == "explicit" || t == "inline" || t == "friend" ||
    isAttrToken t || t == "constexpr" || t == "consteval" || t == "constinit"

/-- A field or variable declaration node as the reconstructor sees it:
parser-reported type spelling, declared identifier, raw token spellings. -/
structure VarCursor where
  type_spelling : String
  displayname : String
  tokens : List String
deriving DecidableEq, Repr

/-- A callable declaration node as the reconstructor sees it. -/
structure FnCursor where
  result_type_spelling : String
  displayname : String
  tokens : List String
deriving DecidableEq, Repr

/-- The filtered token list of a field or variable declaration. -/
def varTokens (c : VarCursor) : List String :=
  c.tokens.filter (fun t => !(excludeVar t))

/-- The filtered token list of a callable declaration. -/
def fnTokens (c : FnCursor) : List String :=
  c.tokens.filter (fun t => !(excludeFn t))

/-- tokens.index of the assignment bound, or the token count when absent. -/
def assignIndex (tokens : List String) : Nat :=
  (tokens.findIdx? (fun t => t == "=")).getD tokens.length

/-- Python list.index with start and stop bounds (absolute result,
none models the ValueError). -/
def pyIndex (x : String) (l : List String) (start stop : Nat) : Option Nat :=
  match ((l.take stop).drop start).findIdx? (fun t => t == x) with
  | some j => some (start + j)
  | none => none

/-- Start of the identifier search window: one past the position computed
from the last closing-angle token before the assignment bound (which the
source computes from the full token count), zero when no closing angle
occurs anywhere; the ValueError of the reversed-slice index is propagated. -/
def rightAngleStart (tokens : List String) : Except PyErr Nat :=
  if tokens.contains ">" then
    match (tokens.take (assignIndex tokens)).reverse.findIdx? (fun t => t == ">") with
    | none => .error .valueError
    | some j => .ok (tokens.length - 1 - j + 1)
  else .ok 0

/-- Concatenation step of the reconstruction: one space is inserted only
when the accumulated text ends and the next token begins with an
alphanumeric character. -/
def joinTok (acc t : String) : String :=
  let lastOk := match acc.toList.getLast? with
    | some c => c.isAlphanum
    | none => false
  let firstOk := match t.toList.head? with
    | some c => c.isAlphanum
    | none => false
  if lastOk && firstOk then acc ++ " " ++ t else acc ++ t

/-- The reconstructed type text: token zero followed by the tokens strictly
before the identifier index, joined by the spacing rule. -/
def typeJoin (tokens : List String) (name_index : Nat) : String :=
  match tokens with
  | [] => ""
  | t0 :: rest => (rest.take (name_index - 1)).foldl joinTok t0

/-- Converter._parse_var_type.  The sentinel test accepts the plain and the
const-qualified integer spelling; reconstruction failures surface as the
Python exceptions they raise. -/
def parse_var_type (c : VarCursor) : Except PyErr String :=
  let tokens := varTokens c
  if c.type_spelling = "int" ∨ c.type_spelling = "const int" then
    match tokens with
    | [] => .error .indexError
    | t0 :: _ =>
      if t0 = "int" then .ok (stripScope c.type_spelling)
      else
        match rightAngleStart tokens with
        | .error e => .error e
        | .ok start =>
          match pyIndex c.displayname tokens start (assignIndex tokens) with
          | none => .error .valueError
          | some name_index => .ok (stripScope (typeJoin tokens name_index))
  else .ok (stripScope c.type_spelling)

/-- Converter._parse_function_type.  The Bool of the result records whether
the recoverable warning was emitted; in that case the sentinel spelling is
returned unchanged. -/
def parse_function_type (c : FnCursor) : Except PyErr (String × Bool) :=
  let tokens := fnTokens c
  if c.result_type_spelling = "int" then
    match tokens with
    | [] => .error .indexError
    | t0 :: _ =>
      if t0 = "int" then .ok (stripScope c.result_type_spelling, false)
      else
        match tokens.findIdx? (fun t => t == "(") with
        | none => .error .valueError
        | some i =>
          if i ≤ 1 then .ok ("int", true)
          else .ok (stripScope (typeJoin tokens (i - 1)), false)
  else .ok (stripScope c.result_type_spelling, false)

/-! ## Diagram Writer (writers.py, PlantUmlWriter) -/

/-- var_to_string: name-before-type in the default layout, type-before-name
otherwise. -/
def var_to_string (postfix_style : Bool) (v : CppVar) : String :=
  if postfix_style then v.name ++ ": " ++ v.type else v.type ++ " " ++ v.name

/-- One rendered field line of a class block. -/
def fieldLine (postfix_style : Bool) (f : CppField) : String :=
  "\t" ++ f.access_specifier.symbol ++ " " ++
    (if f.is_static then "\x7bstatic\x7d " else "") ++
    var_to_string postfix_style f.var ++ "\n"

/-- One rendered method line of a class block.  The template appends the
return type after the argument list in the default layout for every
method, constructors included. -/
def methodLine (postfix_style : Bool) (m : CppMethod) : String :=
  let argsStr := ", ".intercalate (m.args.map (var_to_string postfix_style))
  if postfix_style then
    "\t" ++ m.access_specifier.symbol ++ " " ++
      (if m.is_static then "\x7bstatic\x7d " else "") ++
      (if m.is_abstract then "\x7babstract\x7d " else "") ++
      m.name ++ "(" ++ argsStr ++ "): " ++ m.return_type ++ "\n"
  else
    "\t" ++ m.access_specifier.symbol ++ " " ++
      (if m.is_static then "\x7bstatic\x7d " else "") ++
      (if m.is_abstract then "\x7babstract\x7d " else "") ++
      m.return_type ++ " " ++ m.name ++ "(" ++ argsStr ++ ")\n"

/-- Concatenation of rendered member lines in order. -/
def joinAll : List String → String
  | [] => ""
  | s :: rest => s ++ joinAll rest

/-- PlantUmlWriter.write: the block rendered for one entity. -/
def writeClass (postfix_style : Bool) (c : CppClass) : String :=
  (if c.is_interface then "interface " ++ c.name ++ " \x7b\n"
   else (if c.is_abstract then "abstract " else "") ++ "class " ++ c.name ++ " \x7b\n") ++
  joinAll (c.fields.map (fieldLine postfix_style)) ++
  (if c.fields ≠ [] ∧ c.methods ≠ [] then "\n" else "") ++
  joinAll (c.methods.map (methodLine postfix_style)) ++
  (if c.fields = [] ∧ c.methods = [] then "\n" else "") ++
  "\x7d"

/-! ## Relationship Synthesizer (converter.py, Converter.output)

The model is the value sequence of the name-keyed mapping in insertion
order; each pass below emits its edge lines in exactly the order the
source writes them. -/

/-- Dict lookup of a model entity by its key (the display name). -/
def lookupClass (model : List CppClass) (key : String) : Option CppClass :=
  model.find? (fun c => c.name == key)

/-- Concatenation of the per-class rows of an edge pass, in model order. -/
def concatRows {α : Type} (f : CppClass → List α) : List CppClass → List α
  | [] => []
  | c :: rest => f c ++ concatRows f rest

/-- An inheritance line: subclass pure name, base pure name, and whether
the realization arrow was chosen. -/
structure InhEdge where
  src : String
  tgt : String
  realization : Bool
deriving DecidableEq, Repr

/-- The inheritance lines written for one class: one line per base-class
entry, realization when the base resolves to a model entity whose
is_interface holds. -/
def inhRow (model : List CppClass) (cls : CppClass) : List InhEdge :=
  cls.base_classes.map (fun base =>
    { src := cls.pure_name
      tgt := pureNameStr base
      realization :=
        match lookupClass model base with
        | some b => b.is_interface
        | none => false })

/-- All inheritance lines of the run, in emission order. -/
def inheritanceEdges (model : List CppClass) : List InhEdge :=
  concatRows (inhRow model) model

/-- Some field of cls has a type spelling containing the other class's pure
name as a whole-word match. -/
def aggFieldHit (cls other : CppClass) : Bool :=
  cls.fields.any (fun f => searchWordS other.pure_name f.type)

/-- The aggregation pairs recorded while processing one owner class: the
inner loop emits one line per matching other class and breaks out of the
field loop after the first matching field. -/
def aggRow (model : List CppClass) (cls : CppClass) : List (String × String) :=
  (model.filter (fun other => aggFieldHit cls other)).map
    (fun other => (cls.pure_name, other.pure_name))

/-- All recorded aggregation pairs (owner pure name, other pure name), in
emission order; the written line for a pair is the composition arrow from
the other class to the owner. -/
def aggregationEdges (model : List CppClass) : List (String × String) :=
  concatRows (aggRow model) model

/-- The argument types of a method joined by single spaces. -/
def argTypesJoined (m : CppMethod) : String :=
  " ".intercalate (m.args.map (fun a => a.type))

/-- Some method of cls mentions the other class's pure name in its return
type or its joined argument types as a whole-word match. -/
def methodHit (cls other : CppClass) : Bool :=
  cls.methods.any (fun m =>
    searchWordS other.pure_name m.return_type ||
      searchWordS other.pure_name (argTypesJoined m))

/-- The base-suppression test of the dependency pass: some base-class entry
of cls resolves in the model to an entity whose pure name already has a
recorded dependency pair to the other class's pure name. -/
def baseDepHit (model : List CppClass) (deps : List (String × String))
    (cls other : CppClass) : Bool :=
  cls.base_classes.any (fun base =>
    match lookupClass model base with
    | some b => deps.contains (b.pure_name, other.pure_name)
    | none => false)

/-- The dependency-pass body for one ordered pair of classes: skip when the
pair is the same entity, the other class is a direct base, the pair is an
aggregation, or the base suppression fires; otherwise record one pair when
some method matches. -/
def depUpdate (model : List CppClass) (aggs : List (String × String))
    (cls other : CppClass) (deps : List (String × String)) : List (String × String) :=
  if cls = other ∨ other.name ∈ cls.base_classes ∨
      (cls.pure_name, other.pure_name) ∈ aggs ∨
      baseDepHit model deps cls other = true then deps
  else if methodHit cls other then deps ++ [(cls.pure_name, other.pure_name)]
  else deps

/-- The inner loop of the dependency pass: the other classes in model
order, threading the recorded pairs. -/
def depInner (model : List CppClass) (aggs : List (String × String))
    (cls : CppClass) : List CppClass → List (String × String) → List (String × String)
  | [], deps => deps
  | other :: rest, deps => depInner model aggs cls rest (depUpdate model aggs cls other deps)

/-- The outer loop of the dependency pass: the classes in model insertion
order. -/
def depOuter (model : List CppClass) (aggs : List (String × String)) :
    List CppClass → List (String × String) → List (String × String)
  | [], deps => deps
  | cls :: rest, deps => depOuter model aggs rest (depInner model aggs cls model deps)

/-- All recorded dependency pairs (user pure name, other pure name), in
emission order; the aggregation pairs are fully computed before the pass
starts. -/
def dependencyEdges (model : List CppClass) : List (String × String) :=
  depOuter model (aggregationEdges model) model []

/-! ## Structural lemmas about the edge passes -/

/-- Membership in a concatenation of per-class rows. -/
lemma mem_concatRows {α : Type} (f : CppClass → List α) (l : List CppClass) (a : α) :
    a ∈ concatRows f l ↔ ∃ c ∈ l, a ∈ f c := by
  induction l with
  | nil => simp [concatRows]
  | cons c rest ih => simp [concatRows, ih]

/-- Every recorded aggregation pair of one owner row carries the owner's
pure name as its first component. -/
lemma fst_mem_aggRow {model : List CppClass} {cls : CppClass} {p : String × String}
    (h : p ∈ aggRow model cls) : p.1 = cls.pure_name := by
  simp only [aggRow, List.mem_map] at h
  rcases h with ⟨o, _, rfl⟩
  rfl

/-- A single owner row of the aggregation pass has no duplicate pairs when
the model's pure names are pairwise distinct. -/
lemma aggRow_nodup {model : List CppClass} (h : (model.map CppClass.pure_name).Nodup)
    (cls : CppClass) : (aggRow model cls).Nodup := by
  have hs : ((model.filter (fun other => aggFieldHit cls other)).map CppClass.pure_name).Sublist
      (model.map CppClass.pure_name) := (List.filter_sublist model).map _
  have h1 : ((model.filter (fun other => aggFieldHit cls other)).map CppClass.pure_name).Nodup :=
    h.sublist hs
  have h2 : aggRow model cls =
      ((model.filter (fun other => aggFieldHit cls other)).map CppClass.pure_name).map
        (fun s => (cls.pure_name, s)) := by
    simp [aggRow, List.map_map]
  rw [h2]
  exact List.Nodup.map (fun a b hab => by simpa using hab) h1

/-- The aggregation pass records no duplicate pair when the model's pure
names are pairwise distinct. -/
lemma aggregationEdges_nodup {model : List CppClass}
    (h : (model.map CppClass.pure_name).Nodup) : (aggregationEdges model).Nodup := by
  suffices H : ∀ outer : List CppClass, (outer.map CppClass.pure_name).Nodup →
      (concatRows (aggRow model) outer).Nodup from H model h
  intro outer
  induction outer with
  | nil => intro _; simp [concatRows]
  | cons c rest ih =>
    intro hc
    rw [List.map_cons, List.nodup_cons] at hc
    obtain ⟨hni, hrest⟩ := hc
    show (aggRow model c ++ concatRows (aggRow model) rest).Nodup
    rw [List.nodup_append]
    refine ⟨aggRow_nodup h c, ih hrest, ?_⟩
    intro p hp hp'
    have e1 := fst_mem_aggRow hp
    rcases (mem_concatRows _ _ _).1 hp' with ⟨c', hc', hpc'⟩
    have e2 := fst_mem_aggRow hpc'
    apply hni
    rw [← e1, e2]
    exact List.mem_map_of_mem _ hc'

/-- The two possible outcomes of one dependency-pass step: either the state
is unchanged, or exactly the pair of the two pure names is appended and the
pair was neither a self pair nor a recorded aggregation. -/
lemma depUpdate_cases (model : List CppClass) (aggs : List (String × String))
    (cls other : CppClass) (deps : List (String × String)) :
    depUpdate model aggs cls other deps = deps ∨
      (depUpdate model aggs cls other deps = deps ++ [(cls.pure_name, other.pure_name)] ∧
        cls ≠ other ∧ (cls.pure_name, other.pure_name) ∉ aggs) := by
  unfold depUpdate
  by_cases h1 : cls = other ∨ other.name ∈ cls.base_classes ∨
      (cls.pure_name, other.pure_name) ∈ aggs ∨ baseDepHit model deps cls other = true
  · left
    rw [if_pos h1]
  · rw [if_neg h1]
    push_neg at h1
    by_cases h2 : methodHit cls other = true
    · right
      rw [if_pos h2]
      exact ⟨rfl, h1.1, h1.2.2.1⟩
    · left
      rw [if_neg h2]

/-- Membership after one dependency-pass step. -/
lemma mem_depUpdate {model : List CppClass} {aggs : List (String × String)}
    {cls other : CppClass} {deps : List (String × String)} {p : String × String}
    (h : p ∈ depUpdate model aggs cls other deps) :
    p ∈ deps ∨ (cls ≠ other ∧ p = (cls.pure_name, other.pure_name) ∧ p ∉ aggs) := by
  rcases depUpdate_cases model aggs cls other deps with he | ⟨he, hne, hna⟩ <;> rw [he] at h
  · exact Or.inl h
  · rcases List.mem_append.1 h with h' | h'
    · exact Or.inl h'
    · simp only [List.mem_singleton] at h'
      subst h'
      exact Or.inr ⟨hne, rfl, hna⟩

/-- Membership after the inner dependency loop. -/
lemma mem_depInner {model : List CppClass} {aggs : List (String × String)}
    {cls : CppClass} : ∀ {others : List CppClass} {deps : List (String × String)}
    {p : String × String}, p ∈ depInner model aggs cls others deps →
      p ∈ deps ∨ ∃ o ∈ others, cls ≠ o ∧ p = (cls.pure_name, o.pure_name) ∧ p ∉ aggs := by
  intro others
  induction others with
  | nil => intro deps p h; exact Or.inl h
  | cons o rest ih =>
    intro deps p h
    rcases ih h with h' | ⟨o', ho', hrest⟩
    · rcases mem_depUpdate h' with h'' | hx
      · exact Or.inl h''
      · exact Or.inr ⟨o, List.mem_cons_self o rest, hx⟩
    · exact Or.inr ⟨o', List.mem_cons_of_mem o ho', hrest⟩

/-- Membership after the outer dependency loop. -/
lemma mem_depOuter {model : List CppClass} {aggs : List (String × String)} :
    ∀ {cs : List CppClass} {deps : List (String × String)} {p : String × String},
    p ∈ depOuter model aggs cs deps →
      p ∈ deps ∨ ∃ c ∈ cs, ∃ o ∈ model, c ≠ o ∧ p = (c.pure_name, o.pure_name) ∧ p ∉ aggs := by
  intro cs
  induction cs with
  | nil => intro deps p h; exact Or.inl h
  | cons c rest ih =>
    intro deps p h
    rcases ih h with h' | ⟨c', hc', hrest⟩
    · rcases mem_depInner h' with h'' | ⟨o, ho, hx⟩
      · exact Or.inl h''
      · exact Or.inr ⟨c, List.mem_cons_self c rest, o, ho, hx⟩
    · exact Or.inr ⟨c', List.mem_cons_of_mem c hc', hrest⟩

/-- Every recorded dependency pair comes from two distinct model entries
whose pure names it carries, and was never recorded as an aggregation. -/
lemma dep_sound {model : List CppClass} {p : String × String}
    (h : p ∈ dependencyEdges model) :
    ∃ c ∈ model, ∃ o ∈ model, c ≠ o ∧ p = (c.pure_name, o.pure_name) ∧
      p ∉ aggregationEdges model := by
  rcases mem_depOuter h with h' | h'
  · cases h'
  · exact h'

/-- Weakened membership after the inner dependency loop: anything new
carries the processed class's pure name as its first component. -/
lemma depInner_fst {model : List CppClass} {aggs : List (String × String)}
    {cls : CppClass} {others : List CppClass} {deps : List (String × String)}
    {p : String × String} (h : p ∈ depInner model aggs cls others deps) :
    p ∈ deps ∨ p.1 = cls.pure_name := by
  rcases mem_depInner h with h' | ⟨o, _, _, he, _⟩
  · exact Or.inl h'
  · rw [he]
    exact Or.inr rfl

/-- The inner dependency loop preserves distinctness of the recorded pairs
when the incoming state has nothing that could collide with the pairs the
loop can add. -/
lemma depInner_nodup (model : List CppClass) (aggs : List (String × String))
    (cls : CppClass) : ∀ (others : List CppClass) (deps : List (String × String)),
    deps.Nodup →
    (∀ p ∈ deps, p.1 = cls.pure_name → p.2 ∉ others.map CppClass.pure_name) →
    (others.map CppClass.pure_name).Nodup →
    (depInner model aggs cls others deps).Nodup := by
  intro others
  induction others with
  | nil => intro deps h _ _; exact h
  | cons o rest ih =>
    intro deps hnd hdj hno
    rw [List.map_cons, List.nodup_cons] at hno
    obtain ⟨ho, hrest⟩ := hno
    show (depInner model aggs cls rest (depUpdate model aggs cls o deps)).Nodup
    apply ih
    · rcases depUpdate_cases model aggs cls o deps with he | ⟨he, -, -⟩ <;> rw [he]
      · exact hnd
      · rw [List.nodup_append]
        refine ⟨hnd, List.nodup_singleton _, ?_⟩
        intro q hq hq'
        simp only [List.mem_singleton] at hq'
        subst hq'
        exact hdj _ hq rfl (by simp)
    · intro p hp hfst
      rcases depUpdate_cases model aggs cls o deps with he | ⟨he, -, -⟩ <;> rw [he] at hp
      · intro hin
        exact hdj p hp hfst (by simp [hin])
      · rcases List.mem_append.1 hp with hp' | hp'
        · intro hin
          exact hdj p hp' hfst (by simp [hin])
        · simp only [List.mem_singleton] at hp'
          subst hp'
          exact ho
    · exact hrest

/-- The outer dependency loop records no duplicate pair when the model's
pure names are pairwise distinct. -/
lemma depOuter_nodup (model : List CppClass) (aggs : List (String × String))
    (hm : (model.map CppClass.pure_name).Nodup) :
    ∀ (cs : List CppClass) (deps : List (String × String)),
    deps.Nodup →
    (∀ p ∈ deps, p.1 ∉ cs.map CppClass.pure_name) →
    (cs.map CppClass.pure_name).Nodup →
    (depOuter model aggs cs deps).Nodup := by
  intro cs
  induction cs with
  | nil => intro deps h _ _; exact h
  | cons c rest ih =>
    intro deps hnd hdj hcs
    rw [List.map_cons, List.nodup_cons] at hcs
    obtain ⟨hc, hrest⟩ := hcs
    show (depOuter model aggs rest (depInner model aggs c model deps)).Nodup
    apply ih
    · apply depInner_nodup
      · exact hnd
      · intro p hp hfst
        exact absurd (by simp [hfst] : p.1 ∈ (c :: rest).map CppClass.pure_name) (hdj p hp)
      · exact hm
    · intro p hp
      rcases depInner_fst hp with hp' | hp'
      · intro hin
        exact hdj p hp' (by simp [hin])
      · rw [hp']
        exact hc
    · exact hrest

/-! ## Concrete inputs used by counterexamples and witnesses -/

/-- A class holding a field whose type spelling mentions its own pure name
(a linked-list node). -/
def nodeClass : CppClass :=
  { name := "Node"
    fields := [{ var := { name := "next", type := "Node *" }, access_specifier := .Private }] }

/-- A class whose method returns the other demo class. -/
def demoA : CppClass :=
  { name := "A", methods := [{ name := "get", return_type := "B", access_specifier := .Public }] }

/-- A plain empty demo class. -/
def demoB : CppClass := { name := "B" }

/-- A two-class model producing one dependency edge and no aggregation. -/
def demoAB : List CppClass := [demoA, demoB]

/-- A struct with a single pure-virtual method and no fields. -/
def pureVirtualStruct : CppClass :=
  { name := "S"
    methods := [{ name := "f", return_type := "void", access_specifier := .Public,
                  is_abstract := true }] }

/-- A method marked as a constructor, as the extractor builds it. -/
def ctorMethod : CppMethod :=
  { name := "S", return_type := "void", access_specifier := .Public, is_constructor := true }

/-- A class whose only member is a constructor. -/
def ctorClass : CppClass := { name := "S", methods := [ctorMethod] }

/-- A field declaration reported as const-qualified sentinel whose tokens
spell a different type. -/
def constSentinelVar : VarCursor :=
  { type_spelling := "const int", displayname := "x", tokens := ["const", "T", "x", ";"] }

/-- A field declaration whose declared identifier does not occur in its
token window. -/
def missingNameVar : VarCursor :=
  { type_spelling := "int", displayname := "x", tokens := ["T", "y", ";"] }

/-- A callable whose parameter-list token appears too early for a usable
name boundary. -/
def earlyParenFn : FnCursor :=
  { result_type_spelling := "int", displayname := "f", tokens := ["f", "(", ")", ";"] }

/-- A variable declaration with a scope-qualified reported type. -/
def scopedVar : VarCursor :=
  { type_spelling := "std::vector<int>", displayname := "v", tokens := ["std", "::", "vector", "<", "int", ">", "v", ";"] }

/-- A callable with a scope-qualified reported return type. -/
def scopedFn : FnCursor :=
  { result_type_spelling := "ns::Foo", displayname := "f", tokens := ["ns", "::", "Foo", "f", "(", ")", ";"] }

/-- A class inheriting from two specializations sharing one pure name. -/
def twoBaseClass : CppClass := { name := "D", base_classes := ["B<int>", "B<long>"] }

/-- Base class of the suppression demo: depends on T. -/
def suprB : CppClass :=
  { name := "B", methods := [{ name := "make", return_type := "T", access_specifier := .Public }] }

/-- Subclass of the suppression demo: also mentions T in a method. -/
def suprD : CppClass :=
  { name := "D", base_classes := ["B"]
    methods := [{ name := "use", return_type := "T", access_specifier := .Public }] }

/-- Target class of the suppression demo. -/
def suprT : CppClass := { name := "T" }

/-- The model of the suppression demo in insertion order. -/
def suprModel : List CppClass := [suprB, suprD, suprT]

/-! ## The claims -/

/-- C1, as stated, is false: the aggregation pass of Converter.output has no
owner-not-equal-other guard, so a class whose field type spelling
whole-word-matches its own pure name receives a self-referential
aggregation edge.  On the one-class model of a linked-list node the pass
records exactly the self pair (and writes the self composition line). -/
theorem claim_C1_counterexample :
    aggregationEdges [nodeClass] = [("Node", "Node")] ∧
    ("Node", "Node") ∈ aggregationEdges [nodeClass] := by
  constructor
  · rfl
  · decide

/-- C1 (amended): dependency edges are never self-referential — every
recorded dependency pair has distinct source and target pure names whenever
the model's pure names are pairwise distinct (the pass skips the pair of a
class with itself); aggregation edges, by contrast, can be self-referential
as the counterexample shows. -/
theorem claim_C1 (model : List CppClass) (p : String × String)
    (hm : (model.map CppClass.pure_name).Nodup)
    (hp : p ∈ dependencyEdges model) : p.1 ≠ p.2 := by
  rcases dep_sound hp with ⟨c, hc, o, ho, hne, he, -⟩
  rw [he]
  intro h
  exact hne (List.inj_on_of_nodup_map hm hc ho h)

/-- Witness for C1 at the two-class demo model: the recorded dependency
pair has distinct components. -/
theorem claim_C1_witness :
    ("A", "B") ∈ dependencyEdges demoAB ∧ (("A", "B") : String × String).1 ≠ ("A", "B").2 :=
  ⟨by decide, claim_C1 demoAB ("A", "B") (by decide) (by decide)⟩

/-- C2, as stated, is false: a struct whose only member is a single
pure-virtual method and which has no fields satisfies is_interface (every
method abstract, no fields), and PlantUmlWriter.write checks is_interface
before is_abstract, so the block header is the interface header, not an
abstract-class header. -/
theorem claim_C2_counterexample :
    writeClass true pureVirtualStruct = "interface S \x7b\n\t+ \x7babstract\x7d f(): void\n\x7d" ∧
    writeClass true pureVirtualStruct ≠
      "abstract class S \x7b\n\t+ \x7babstract\x7d f(): void\n\x7d" := by
  constructor
  · rfl
  · decide

/-- C2 (amended): a class entity with no fields whose only method is
abstract is classified as an interface and is rendered as an interface
block whose single member line carries the abstract marker. -/
theorem claim_C2 (name : String) (bases : List String) (m : CppMethod)
    (hab : m.is_abstract = true) (hst : m.is_static = false) :
    CppClass.is_interface { name := name, base_classes := bases, methods := [m] } = true ∧
    writeClass true { name := name, base_classes := bases, methods := [m] } =
      "interface " ++ name ++ " \x7b\n" ++
        ("\t" ++ m.access_specifier.symbol ++ " \x7babstract\x7d " ++ m.name ++ "(" ++
          ", ".intercalate (m.args.map (var_to_string true)) ++ "): " ++ m.return_type ++ "\n") ++
      "\x7d" := by
  constructor
  · simp [CppClass.is_interface, hab]
  · simp [writeClass, CppClass.is_interface, methodLine, joinAll, hab, hst, String.append_assoc]

/-- Witness for C2 at the concrete pure-virtual struct. -/
theorem claim_C2_witness :
    CppClass.is_interface pureVirtualStruct = true ∧
    writeClass true pureVirtualStruct =
      "interface " ++ "S" ++ " \x7b\n" ++
        ("\t" ++ AccessSpecifier.Public.symbol ++ " \x7babstract\x7d " ++ "f" ++ "(" ++
          ", ".intercalate ([] : List String) ++ "): " ++ "void" ++ "\n") ++
      "\x7d" :=
  claim_C2 "S" []
    { name := "f", return_type := "void", access_specifier := .Public, is_abstract := true }
    rfl rfl

/-- C3: the member line the writer emits for a constructor does append the
return-type suffix — PlantUmlWriter.write never consults is_constructor and
its default-layout template always appends the colon and the return type
(the placeholder void that the extractor stores for constructors). -/
theorem claim_C3 :
    ctorMethod.is_constructor = true ∧
    methodLine true ctorMethod = "\t+ S(): void\n" ∧
    writeClass true ctorClass = "class S \x7b\n\t+ S(): void\n\x7d" :=
  ⟨rfl, rfl, rfl⟩

/-- C4, as stated, is false: the field path of the reconstructor also
treats the const-qualified integer spelling as sentinel, so a declaration
whose reported type is const int — which is not the sentinel spelling —
still undergoes token-based reconstruction instead of being returned
verbatim. -/
theorem claim_C4_counterexample :
    constSentinelVar.type_spelling ≠ "int" ∧
    parse_var_type constSentinelVar = Except.ok "const T" ∧
    stripScope constSentinelVar.type_spelling = "const int" ∧
    ("const T" : String) ≠ "const int" :=
  ⟨by decide, rfl, rfl, by decide⟩

/-- C4 (amended): for callables, when the reported return type is not the
sentinel the result is the reported type with its scope-qualifier prefix
stripped; for fields and variables the same holds once the reported type is
neither the sentinel nor its const-qualified variant; no token-based
reconstruction happens in those cases. -/
theorem claim_C4 (vc : VarCursor) (fc : FnCursor)
    (h1 : vc.type_spelling ≠ "int") (h2 : vc.type_spelling ≠ "const int")
    (h3 : fc.result_type_spelling ≠ "int") :
    parse_var_type vc = Except.ok (stripScope vc.type_spelling) ∧
    parse_function_type fc = Except.ok (stripScope fc.result_type_spelling, false) := by
  constructor
  · simp [parse_var_type, h1, h2]
  · simp [parse_function_type, h3]

/-- Witness for C4 at scope-qualified reported types. -/
theorem claim_C4_witness :
    parse_var_type scopedVar = Except.ok (stripScope "std::vector<int>") ∧
    parse_function_type scopedFn = Except.ok (stripScope "ns::Foo", false) :=
  claim_C4 scopedVar scopedFn (by decide) (by decide) (by decide)

/-- C5: if an aggregation pair (owner, other) was recorded, no dependency
edge is ever emitted for the same ordered pair — the dependency pass checks
every candidate pair against the completed aggregation record and skips on
a hit. -/
theorem claim_C5 (model : List CppClass) (p : String × String)
    (hp : p ∈ dependencyEdges model) : p ∉ aggregationEdges model := by
  rcases dep_sound hp with ⟨-, -, -, -, -, -, hna⟩
  exact hna

/-- Witness for C5 at the two-class demo model. -/
theorem claim_C5_witness :
    ("A", "B") ∈ dependencyEdges demoAB ∧ ("A", "B") ∉ aggregationEdges demoAB :=
  ⟨by decide, claim_C5 demoAB ("A", "B") (by decide)⟩

/-- C6: one step of the dependency pass leaves the recorded edges unchanged
whenever some direct base class of the processed class, present in the
model, already has a recorded dependency pair to the target's pure name —
the incremental suppression check of Converter.output. -/
theorem claim_C6 (model : List CppClass) (aggs deps : List (String × String))
    (cls other : CppClass)
    (h : baseDepHit model deps cls other = true) :
    depUpdate model aggs cls other deps = deps := by
  unfold depUpdate
  rw [if_pos (Or.inr (Or.inr (Or.inr h)))]

/-- Witness for C6: with the base's edge to T already recorded, the
subclass's step adds nothing even though one of its methods mentions T. -/
theorem claim_C6_witness :
    methodHit suprD suprT = true ∧
    depUpdate suprModel [] suprD suprT [("B", "T")] = [("B", "T")] :=
  ⟨by decide, claim_C6 suprModel [] [("B", "T")] suprD suprT (by decide)⟩

/-- C7, as stated, is false: the inheritance pass performs no
deduplication — a class with two base-class entries sharing one pure name
produces two identical inheritance lines. -/
theorem claim_C7_counterexample :
    inheritanceEdges [twoBaseClass] =
      [{ src := "D", tgt := "B", realization := false },
       { src := "D", tgt := "B", realization := false }] ∧
    ¬ (inheritanceEdges [twoBaseClass]).Nodup := by
  constructor
  · rfl
  · decide

/-- C7 (amended): the aggregation and dependency passes are deduplicated —
when the model's pure names are pairwise distinct neither pass records the
same ordered pair twice — while inheritance lines are emitted once per
base-class entry without deduplication, as the counterexample shows. -/
theorem claim_C7 (model : List CppClass)
    (hm : (model.map CppClass.pure_name).Nodup) :
    (aggregationEdges model).Nodup ∧ (dependencyEdges model).Nodup := by
  refine ⟨aggregationEdges_nodup hm, ?_⟩
  unfold dependencyEdges
  exact depOuter_nodup model (aggregationEdges model) hm model [] (by simp) (by simp) hm

/-- Witness for C7 at the two-class demo model. -/
theorem claim_C7_witness :
    (aggregationEdges demoAB).Nodup ∧ (dependencyEdges demoAB).Nodup :=
  claim_C7 demoAB (by decide)

/-- C8: for a callable whose reported return type is the sentinel and whose
filtered tokens require reconstruction, a parameter-list token at position
at most one makes the identifier-boundary index non-positive; the
reconstructor then reports the recoverable warning (the Bool of the result)
and returns the sentinel spelling unchanged as a normal result instead of
an exception. -/
theorem claim_C8 (c : FnCursor) (t0 : String) (rest : List String) (i : Nat)
    (h1 : c.result_type_spelling = "int") (h2 : fnTokens c = t0 :: rest)
    (h3 : t0 ≠ "int")
    (h4 : (t0 :: rest).findIdx? (fun t => t == "(") = some i)
    (h5 : (i : Int) - 1 ≤ 0) :
    parse_function_type c = Except.ok ("int", true) := by
  have hi : i ≤ 1 := by omega
  unfold parse_function_type
  rw [h1, if_pos rfl, h2]
  simp [h3, h4, hi]

/-- Witness for C8 at a callable whose first token is already its name. -/
theorem claim_C8_witness :
    parse_function_type earlyParenFn = Except.ok ("int", true) :=
  claim_C8 earlyParenFn "f" ["(", ")", ";"] 1 rfl rfl (by decide) (by decide) (by decide)

/-- C9: a non-enum class with no fields and no methods vacuously satisfies
is_interface, so the writer renders its block with the interface header in
either layout. -/
theorem claim_C9 (name : String) (bases : List String) (postfix_style : Bool) :
    CppClass.is_interface { name := name, base_classes := bases } = true ∧
    writeClass postfix_style { name := name, base_classes := bases } =
      "interface " ++ name ++ " \x7b\n\n\x7d" := by
  constructor
  · rfl
  · simp [writeClass, CppClass.is_interface, joinAll, String.append_assoc]

/-- Witness for C9 at the empty demo class. -/
theorem claim_C9_witness :
    CppClass.is_interface demoB = true ∧
    writeClass true demoB = "interface " ++ "B" ++ " \x7b\n\n\x7d" :=
  claim_C9 "B" [] true

/-- C10: for a field or variable whose reported type is the sentinel and
whose tokens require reconstruction, there is no recoverable fallback — if
the declared identifier is absent from the search window (or the filtered
token list is empty, or the closing-angle bound itself cannot be located),
parse_var_type surfaces a Python exception rather than a result, unlike the
callable path. -/
theorem claim_C10 (c : VarCursor)
    (hs : c.type_spelling = "int" ∨ c.type_spelling = "const int")
    (hhead : (varTokens c).head? ≠ some "int")
    (hfind : ((rightAngleStart (varTokens c)).toOption.all
      (fun start =>
        (pyIndex c.displayname (varTokens c) start (assignIndex (varTokens c))).isNone)) = true) :
    ∃ e, parse_var_type c = Except.error e := by
  unfold parse_var_type
  rw [if_pos hs]
  rcases hv : varTokens c with _ | ⟨t0, rest⟩
  · exact ⟨.indexError, rfl⟩
  · have ht0 : t0 ≠ "int" := by
      rw [hv] at hhead
      simpa using hhead
    rw [hv] at hfind
    rcases hr : rightAngleStart (t0 :: rest) with e | start
    · exact ⟨e, by simp [ht0, hr]⟩
    · rw [hr] at hfind
      simp only [Except.toOption, Option.all] at hfind
      rcases hpi : pyIndex c.displayname (t0 :: rest) start (assignIndex (t0 :: rest)) with _ | j
      · exact ⟨.valueError, by simp [ht0, hr, hpi]⟩
      · rw [hpi] at hfind
        simp at hfind

/-- Witness for C10 at a declaration whose identifier is missing from its
tokens. -/
theorem claim_C10_witness :
    ∃ e, parse_var_type missingNameVar = Except.error e :=
  claim_C10 missingNameVar (Or.inl rfl) (by decide) (by decide)

end CppUml
